import Mathlib

/-!
Verification of the dlib-to-caffe network converter
(`tools/convert_dlib_nets_to_caffe/main.cpp`).

The development shallowly embeds the converter: the `layer` record, the
reference resolver (`find_layer_caffe_name` and its skip-scan), the
parameter relayout performed by `set_network_weights`, the per-layer
translation of pooling layers, the XML event handler (`doc_handler`) and
the driver `convert_dlib_xml_to_cafffe_python_code`.

Modelling conventions:
- `dlib::matrix<double>` becomes `Mat α`, a row list with a declared column
  count; the relayout logic never inspects entries, so the element type is
  a parameter (instantiated with `Int` where a concrete matrix is needed).
- numeric XML attribute values (`double` in the source) are modelled as
  `Int`; the converter only ever compares them with `0`, converts them to
  `long` counts, or prints them.
- a `DLIB_ASSERT`-guarded out-of-range matrix access (undefined behaviour
  in a release build) is modelled as `none`;
- a thrown `dlib::error` becomes `Except.error` carrying the message.
-/

namespace DlibToCaffe

/-- Shallow embedding of `dlib::matrix`: a declared column count `nc` and the
list of rows.  dlib matrices are rectangular; `Rect` states that invariant. -/
structure Mat (α : Type) where
  nc : Nat
  rows : List (List α)
deriving DecidableEq, Repr, Inhabited

/-- The matrix row count, `m.nr()` in dlib (a `long` there, hence `Int`). -/
def Mat.nr (m : Mat α) : Int := (m.rows.length : Int)

/-- The dlib `m.size()`, which is `m.nr()*m.nc()`, the total element count. -/
def Mat.size (m : Mat α) : Int := ((m.rows.length * m.nc : Nat) : Int)

/-- The number of elements actually stored in the row list. -/
def Mat.elemCount (m : Mat α) : Nat := (m.rows.map List.length).sum

/-- Rectangularity: every row has the declared length.  True of every dlib
matrix by construction. -/
def Mat.Rect (m : Mat α) : Prop := ∀ r ∈ m.rows, r.length = m.nc

instance (m : Mat α) : Decidable m.Rect :=
  decidable_of_iff (∀ r ∈ m.rows, r.length = m.nc) Iff.rfl

/-- dlib's `range(start, end)`: the inclusive run of indices from `start` to
`end`, counting down when `start > end` (`abs(end-start)+1` entries; dlib's
`matrix_range_exp` sets the increment to `-1` in that case). -/
def rangeIdx (a b : Int) : List Int :=
  if a ≤ b then (List.range ((b - a).toNat + 1)).map (fun k : Nat => a + (k : Int))
  else (List.range ((a - b).toNat + 1)).map (fun k : Nat => a - (k : Int))

/-- dlib's `rowm(m, range)`: the submatrix made of the selected rows.  The
`DLIB_ASSERT` bound check (every index within `[0, m.nr())`) is modelled by
returning `none` when violated. -/
def Mat.rowm (m : Mat α) (idxs : List Int) : Option (Mat α) :=
  if idxs.all (fun i => decide (0 ≤ i) && decide (i < (m.rows.length : Int))) then
    some ⟨m.nc, idxs.map (fun i => m.rows.getD i.toNat [])⟩
  else none

/-- dlib's single-row `rowm(m, i)`: the `i`-th row as a `1 × nc` matrix. -/
def Mat.rowmOne (m : Mat α) (i : Int) : Option (Mat α) :=
  if 0 ≤ i ∧ i < (m.rows.length : Int) then
    some ⟨m.nc, [m.rows.getD i.toNat []]⟩
  else none

/-- dlib's `trans(m)`: the transpose.  Row `j` of the result collects entry
`j` of every row of `m`. -/
def Mat.trans (m : Mat α) : Mat α :=
  ⟨m.rows.length, (List.range m.nc).map (fun j => m.rows.filterMap (fun r => r.get? j))⟩

/-- The `layer` struct of the converter: one record of the parsed network. -/
structure Layer where
  type : String := ""
  idx : Int := 0
  detail_name : String := ""
  attributes : List (String × Int) := []
  params : Mat Int := ⟨0, []⟩
  tag_id : Int := -1
  skip_id : Int := -1
deriving DecidableEq, Repr, Inhabited

/-- `layer::attribute(key)` (named `attr` here because `attribute` is a Lean
keyword): look the key up, throwing when it is absent. -/
def Layer.attr (l : Layer) (key : String) : Except String Int :=
  match l.attributes.find? (fun kv => kv.1 == key) with
  | some kv => Except.ok kv.2
  | none => Except.error ("Layer doesn't have the requested attribute '" ++ key ++ "'.")

/-- `layer::caffe_layer_name()`: `"data"` for the input record, otherwise the
detail name concatenated with the sequence index. -/
def Layer.caffe_layer_name (l : Layer) : String :=
  if l.type = "input" then "data" else l.detail_name ++ toString l.idx

/-- Outcome of the reference resolver: a resolved name, the thrown
"skip back to a non-existing layer" error, or the scan running off the end of
the stored list (undefined behaviour in C++, unreachable for parser output,
whose last record is the input record). -/
inductive ScanResult where
  | found : String → ScanResult
  | fatal : ScanResult
  | offEnd : ScanResult
deriving DecidableEq, Repr

/-- The `tag_id != -1` loop of `find_layer_caffe_name`: after the initial
`i--`, each record is tested for `tag_id == t` first and for being the input
record second; the scan moves toward the input end of the stored list. -/
def scanSkip : List Layer → Int → ScanResult
  | [], _ => ScanResult.offEnd
  | l :: rest, t =>
    if l.tag_id = t then ScanResult.found l.caffe_layer_name
    else if l.type = "input" then ScanResult.fatal
    else scanSkip rest t

/-- `find_layer_caffe_name(i, tag_id)`.  The C++ iterator `i` is a reverse
iterator over the stored list; it is modelled by the stored index `p` of the
record it points at.  `(i-1)` on a reverse iterator is stored index `p+1`,
and the `i--` loop walks stored indices `p+1, p+2, …` (toward the input). -/
def find_layer_caffe_name (layers : List Layer) (p : Nat) (t : Int) : ScanResult :=
  if t = -1 then
    match layers.get? (p + 1) with
    | some l => ScanResult.found l.caffe_layer_name
    | none => ScanResult.offEnd
  else scanSkip (layers.drop (p + 1)) t

/-- `find_input_layer_caffe_name(i)`: resolve with the record's own `skip_id`. -/
def find_input_layer_caffe_name (layers : List Layer) (p : Nat) : ScanResult :=
  match layers.get? p with
  | some l => find_layer_caffe_name layers p l.skip_id
  | none => ScanResult.offEnd

/-- The convolution branch of `set_network_weights`:
`weights = trans(rowm(params, range(0, params.size()-num_filters-1)))` and
`biases = trans(rowm(params, range(params.size()-num_filters, params.size()-1)))`.
Note the row indices are computed from `size()` (the total element count). -/
def relayout_con (params : Mat α) (num_filters : Int) : Option (Mat α × Mat α) := do
  let w ← params.rowm (rangeIdx 0 (params.size - num_filters - 1))
  let b ← params.rowm (rangeIdx (params.size - num_filters) (params.size - 1))
  return (w.trans, b.trans)

/-- The `fc` branch of `set_network_weights`:
`weights = trans(rowm(params, range(0, params.nr()-2)))` and
`biases = rowm(params, params.nr()-1)` (a single row, not transposed). -/
def relayout_fc (params : Mat α) : Option (Mat α × Mat α) := do
  let w ← params.rowm (rangeIdx 0 (params.nr - 2))
  let b ← params.rowmOne (params.nr - 1)
  return (w.trans, b)

/-- The `fc_no_bias` branch of `set_network_weights`: the whole parameter
matrix, transposed. -/
def relayout_fc_no_bias (params : Mat α) : Mat α := params.trans

/-- The `affine_con`/`affine_fc` branch of `set_network_weights`:
`dims = params.size()/2`, `gamma = trans(rowm(params, range(0, dims-1)))`,
`beta = trans(rowm(params, range(dims, 2*dims-1)))`. -/
def relayout_affine (params : Mat α) : Option (Mat α × Mat α) := do
  let g ← params.rowm (rangeIdx 0 (params.size / 2 - 1))
  let b ← params.rowm (rangeIdx (params.size / 2) (2 * (params.size / 2) - 1))
  return (g.trans, b.trans)

/-- The convolution relayout as claim C3 words it: the weights block is all
rows of the matrix except the final `n`, transposed; the bias block is
exactly the final `n` rows, transposed. -/
def conSpecBlocks (m : Mat α) (n : Nat) : Mat α × Mat α :=
  ((⟨m.nc, m.rows.take (m.rows.length - n)⟩ : Mat α).trans,
   (⟨m.nc, m.rows.drop (m.rows.length - n)⟩ : Mat α).trans)

/-- The fully-connected relayout as claim C5 words it: weights are all rows
except the last, transposed; the bias block is the last row, untransposed. -/
def fcSpecBlocks (m : Mat α) : Mat α × Mat α :=
  ((⟨m.nc, m.rows.dropLast⟩ : Mat α).trans,
   (⟨m.nc, m.rows.getLast?.toList⟩ : Mat α))

/-- The translated form of a pooling declaration (`L.Pooling` emission):
everything the max-pool/avg-pool branches of the converter decide. -/
structure PoolDecl where
  isMax : Bool
  input : String
  global_pooling : Bool
  kernel_w : Option Int
  kernel_h : Option Int
  stride_w : Int
  stride_h : Int
  pad_w : Int
  pad_h : Int
deriving DecidableEq, Repr

/-- The `max_pool`/`avg_pool` branch of `convert_dlib_xml_to_cafffe_python_code`,
with the attribute reads in source order: `nc` (and `nr` when `nc ≠ 0`), then
`padding_x`/`padding_y` with the fatal non-zero-padding check, then the
strides. -/
def translate_pool (isMax : Bool) (inputName : String) (l : Layer) : Except String PoolDecl := do
  let nc ← l.attr "nc"
  let kparams ←
    if nc = 0 then Except.ok (true, (none : Option Int), (none : Option Int))
    else do
      let nr ← l.attr "nr"
      Except.ok (false, some nc, some nr)
  let px ← l.attr "padding_x"
  let py ← l.attr "padding_y"
  if px ≠ 0 ∨ py ≠ 0 then
    Except.error "dlib and caffe implement pooling with non-zero padding differently, so you can't convert a network with such pooling layers."
  else do
    let sx ← l.attr "stride_x"
    let sy ← l.attr "stride_y"
    Except.ok ⟨isMax, inputName, kparams.1, kparams.2.1, kparams.2.2, sx, sy, px, py⟩

/-- Text emitted for one translated pooling declaration. -/
def renderPool (name : String) (d : PoolDecl) : String :=
  "    n." ++ name ++ " = L.Pooling(n." ++ d.input ++
  (if d.isMax then ", pool=P.Pooling.MAX" else ", pool=P.Pooling.AVE") ++
  (match d.kernel_w, d.kernel_h with
   | some kw, some kh => ", kernel_w=" ++ toString kw ++ ", kernel_h=" ++ toString kh
   | _, _ => ", global_pooling=True") ++
  ", stride_w=" ++ toString d.stride_w ++ ", stride_h=" ++ toString d.stride_h ++
  ", pad_w=" ++ toString d.pad_w ++ ", pad_h=" ++ toString d.pad_h ++ ");\n"

/-- The result of `find_input_layer_caffe_name` as the emission code observes
it: the resolved name, or the thrown skip error. -/
def resolveInput (layers : List Layer) (p : Nat) : Except String String :=
  match find_input_layer_caffe_name layers p with
  | ScanResult.found s => Except.ok s
  | ScanResult.fatal =>
    Except.error "Network definition is bad, a layer wanted to skip back to a non-existing layer."
  | ScanResult.offEnd => Except.error "internal: resolver ran off the stored layer list"

/-- Same for the explicit-tag resolver used by `add_prev`. -/
def resolveTag (layers : List Layer) (p : Nat) (t : Int) : Except String String :=
  match find_layer_caffe_name layers p t with
  | ScanResult.found s => Except.ok s
  | ScanResult.fatal =>
    Except.error "Network definition is bad, a layer wanted to skip back to a non-existing layer."
  | ScanResult.offEnd => Except.error "internal: resolver ran off the stored layer list"

/-- The per-layer dispatch of the `make_netspec` emission loop (lines 161-271
of the source): one netspec line per translated record, or the thrown error.
Mid-line partial output on the error paths is modelled at line granularity. -/
def translate_layer (layers : List Layer) (p : Nat) (l : Layer) : Except String String :=
  if l.detail_name = "con" then do
    let inputName ← resolveInput layers p
    let nf ← l.attr "num_filters"
    let nc ← l.attr "nc"
    let nr ← l.attr "nr"
    let sx ← l.attr "stride_x"
    let sy ← l.attr "stride_y"
    let px ← l.attr "padding_x"
    let py ← l.attr "padding_y"
    Except.ok ("    n." ++ l.caffe_layer_name ++ " = L.Convolution(n." ++ inputName ++
      ", num_output=" ++ toString nf ++ ", kernel_w=" ++ toString nc ++
      ", kernel_h=" ++ toString nr ++ ", stride_w=" ++ toString sx ++
      ", stride_h=" ++ toString sy ++ ", pad_w=" ++ toString px ++
      ", pad_h=" ++ toString py ++ ");\n")
  else if l.detail_name = "relu" then do
    let inputName ← resolveInput layers p
    Except.ok ("    n." ++ l.caffe_layer_name ++ " = L.ReLU(n." ++ inputName ++ ");\n")
  else if l.detail_name = "max_pool" then do
    let inputName ← resolveInput layers p
    let d ← translate_pool true inputName l
    Except.ok (renderPool l.caffe_layer_name d)
  else if l.detail_name = "avg_pool" then do
    let inputName ← resolveInput layers p
    let d ← translate_pool false inputName l
    Except.ok (renderPool l.caffe_layer_name d)
  else if l.detail_name = "fc" then do
    let inputName ← resolveInput layers p
    let no ← l.attr "num_outputs"
    Except.ok ("    n." ++ l.caffe_layer_name ++ " = L.InnerProduct(n." ++ inputName ++
      ", num_output=" ++ toString no ++ ", bias_term=True);\n")
  else if l.detail_name = "fc_no_bias" then do
    let inputName ← resolveInput layers p
    let no ← l.attr "num_outputs"
    Except.ok ("    n." ++ l.caffe_layer_name ++ " = L.InnerProduct(n." ++ inputName ++
      ", num_output=" ++ toString no ++ ", bias_term=False);\n")
  else if l.detail_name = "bn_con" ∨ l.detail_name = "bn_fc" then
    Except.error "Conversion from dlib's batch norm layers to caffe's isn't supported.  Instead, you should put your network into 'test mode' by switching batch norm layers to affine layers."
  else if l.detail_name = "affine_con" then do
    let inputName ← resolveInput layers p
    Except.ok ("    n." ++ l.caffe_layer_name ++ " = L.Scale(n." ++ inputName ++
      ", axis=1, bias_term=True);\n")
  else if l.detail_name = "affine_fc" then do
    let inputName ← resolveInput layers p
    Except.ok ("    n." ++ l.caffe_layer_name ++ " = L.Scale(n." ++ inputName ++
      ", axis=3, bias_term=True);\n")
  else if l.detail_name = "add_prev" then do
    let inputName ← resolveInput layers p
    let tg ← l.attr "tag"
    let second ← resolveTag layers p tg
    Except.ok ("    n." ++ l.caffe_layer_name ++ " = L.Eltwise(n." ++ inputName ++
      ", n." ++ second ++ ", operation=P.Eltwise.SUM);\n")
  else
    Except.error ("No known transformation from dlib's " ++ l.detail_name ++ " layer to caffe.")

/-- `print_as_np_array`: the matrix elements in row-major order. -/
def printNpArray (m : Mat Int) : String :=
  "np.array([" ++ String.join ((m.rows.flatten).map (fun x => toString x ++ ",")) ++ "], dtype='float32')"

/-- The three lines assigning one relayout block into a parameter slot. -/
def weightLines (name : String) (slot : Nat) (m : Mat Int) : String :=
  "    p = " ++ printNpArray m ++ ";\n" ++
  "    p.shape = net.params['" ++ name ++ "'][" ++ toString slot ++ "].data.shape;\n" ++
  "    net.params['" ++ name ++ "'][" ++ toString slot ++ "].data[:] = p;\n"

/-- The per-layer dispatch of the `set_network_weights` emission loop (lines
301-356): the parameter relayout plus emission, `Except.error` standing for
the `DLIB_ASSERT`/undefined behaviour hit by an out-of-range `rowm`. -/
def weights_layer (l : Layer) : Except String String :=
  if l.detail_name = "con" then do
    let nf ← l.attr "num_filters"
    match relayout_con l.params nf with
    | some wb =>
      Except.ok (weightLines l.caffe_layer_name 0 wb.1 ++ weightLines l.caffe_layer_name 1 wb.2)
    | none => Except.error "rowm(): row index out of range (DLIB_ASSERT)"
  else if l.detail_name = "fc" then
    match relayout_fc l.params with
    | some wb =>
      Except.ok (weightLines l.caffe_layer_name 0 wb.1 ++ weightLines l.caffe_layer_name 1 wb.2)
    | none => Except.error "rowm(): row index out of range (DLIB_ASSERT)"
  else if l.detail_name = "fc_no_bias" then
    Except.ok (weightLines l.caffe_layer_name 0 (relayout_fc_no_bias l.params))
  else if l.detail_name = "affine_con" ∨ l.detail_name = "affine_fc" then
    match relayout_affine l.params with
    | some gb =>
      Except.ok (weightLines l.caffe_layer_name 0 gb.1 ++ weightLines l.caffe_layer_name 1 gb.2)
    | none => Except.error "rowm(): row index out of range (DLIB_ASSERT)"
  else Except.ok ""

/-- `comp_tags_with_params`: the detail tags whose text content is parsed into
the `params` matrix. -/
def comp_tags_with_params : List String :=
  ["fc", "fc_no_bias", "con", "affine_con", "affine_fc", "affine", "prelu"]

/-- The XML events `doc_handler` consumes (the tokenizer itself is outside the
modelled system; attribute values arrive as strings). -/
inductive XmlEvent where
  | startElement : String → List (String × String) → XmlEvent
  | endElement : String → XmlEvent
  | characters : String → XmlEvent
deriving DecidableEq, Repr

/-- The mutable state of `doc_handler`, with the source's field names. -/
structure DocState where
  layers : List Layer := []
  seen_first_tag : Bool := false
  next_layer : Layer := {}
  current_tag : List String := []
  tag_id : Int := -1
deriving DecidableEq, Repr, Inhabited

/-- `attribute_list::operator[]`: the attribute's value, throwing when the key
is absent. -/
def lookupAtt (atts : List (String × String)) (key : String) : Except String String :=
  match atts.find? (fun kv => kv.1 == key) with
  | some kv => Except.ok kv.2
  | none => Except.error ("No XML attribute named '" ++ key ++ "' was found.")

/-- Digit accumulator for `strToInt` (structural recursion so that concrete
documents evaluate inside the kernel). -/
def parseDigitsAux : List Char → Nat → Option Nat
  | [], acc => some acc
  | c :: cs, acc =>
    if c.isDigit then parseDigitsAux cs (acc * 10 + (c.toNat - '0'.toNat))
    else none

/-- Decimal integer parser over a character list, with an optional leading
minus sign; `none` on empty or non-numeric text. -/
def charsToInt : List Char → Option Int
  | [] => none
  | '-' :: ds =>
    match ds with
    | [] => none
    | _ => (parseDigitsAux ds 0).map (fun n => -(n : Int))
  | ds => (parseDigitsAux ds 0).map (fun n => (n : Int))

/-- Decimal integer parser on strings. -/
def strToInt (s : String) : Option Int := charsToInt s.data

/-- dlib's `string_assign` (`sa = …`) converting an attribute string to a
number, throwing when the text does not parse. -/
def toIntE (s : String) : Except String Int :=
  match strToInt s with
  | some v => Except.ok v
  | none => Except.error ("string_cast could not convert the string: " ++ s)

/-- `std::map` assignment `m[k] = v`: overwrite the key if present, insert
otherwise. -/
def mapInsert (m : List (String × Int)) (k : String) (v : Int) : List (String × Int) :=
  if m.any (fun kv => kv.1 == k) then m.map (fun kv => if kv.1 == k then (k, v) else kv)
  else m ++ [(k, v)]

/-- Copy all XML attributes of a detail element into the layer's attribute
map, converting each value to a number (`sa = atts.element().value()`). -/
def setAttrs : List (String × Int) → List (String × String) → Except String (List (String × Int))
  | m, [] => Except.ok m
  | m, (k, v) :: rest => do
    let n ← toIntE v
    setAttrs (mapInsert m k n) rest

/-- Split a character list at every occurrence of a separator. -/
def splitOnChar : List Char → Char → List (List Char)
  | [], _ => [[]]
  | c :: cs, sep =>
    if c = sep then [] :: splitOnChar cs sep
    else
      match splitOnChar cs sep with
      | [] => [[c]]
      | g :: gs => (c :: g) :: gs

/-- Stand-in for dlib's `istream >> matrix` reading the whitespace/newline
delimited numeric text of a parameter-bearing detail element; `none` when the
text is not a rectangular numeric block (the stream then fails and the
matrix is left unchanged).  No claim depends on the text format itself. -/
def parseMatText (s : String) : Option (Mat Int) :=
  let rows := ((splitOnChar s.data '\n').map
    (fun ln => (splitOnChar ln ' ').filter (fun w => w ≠ []))).filter (fun r => r ≠ [])
  match rows.mapM (fun r => r.mapM charsToInt) with
  | some rs =>
    match rs with
    | [] => none
    | r0 :: _ => if rs.all (fun r => r.length = r0.length) then some ⟨r0.length, rs⟩ else none
  | none => none

/-- `doc_handler::start_element`: the root-element check, then the `layer`
marker dispatch (skip marker, tag marker, genuine layer), then the detail
element handling, then the push onto the element stack. -/
def start_element (st : DocState) (name : String) (atts : List (String × String)) :
    Except String DocState := do
  let st ←
    if st.seen_first_tag = false then
      if name ≠ "net" then Except.error "The top level XML tag must be a 'net' tag."
      else Except.ok {st with seen_first_tag := true}
    else Except.ok st
  let st ←
    if name = "layer" then
      let st := {st with next_layer := {}}
      do
      let ty ← lookupAtt atts "type"
      if ty = "skip" then
        match st.layers.getLast? with
        | none =>
          Except.error "A skip layer was found as the first layer, but the first layer should be an input layer."
        | some lastL => do
          let i ← toIntE (← lookupAtt atts "id")
          Except.ok {st with layers := st.layers.dropLast ++ [{lastL with skip_id := i}]}
      else if ty = "tag" then do
        let i ← toIntE (← lookupAtt atts "id")
        Except.ok {st with tag_id := i}
      else do
        let ix ← toIntE (← lookupAtt atts "idx")
        let nl := {st.next_layer with idx := ix, type := ty}
        if st.tag_id ≠ -1 then
          Except.ok {st with next_layer := {nl with tag_id := st.tag_id}, tag_id := -1}
        else
          Except.ok {st with next_layer := nl}
    else
      match st.current_tag with
      | top :: _ =>
        if top = "layer" then do
          let newAttrs ← setAttrs st.next_layer.attributes atts
          Except.ok {st with next_layer :=
            {st.next_layer with detail_name := name, attributes := newAttrs}}
        else Except.ok st
      | [] => Except.ok st
  Except.ok {st with current_tag := name :: st.current_tag}

/-- `doc_handler::end_element`: pop the element stack; on closing a `layer`
element append the record begun by a genuine layer start (the marker elements
left `next_layer` with an empty `type`, so nothing is appended for them). -/
def end_element (st : DocState) (name : String) : DocState :=
  let st := {st with current_tag := st.current_tag.tail}
  if name = "layer" ∧ st.next_layer.type ≠ "" then
    {st with layers := st.layers ++ [st.next_layer]}
  else st

/-- `doc_handler::characters`: parse parameter text when directly inside a
parameter-bearing detail element. -/
def charactersEv (st : DocState) (data : String) : DocState :=
  match st.current_tag with
  | [] => st
  | top :: _ =>
    if comp_tags_with_params.contains top then
      {st with next_layer :=
        {st.next_layer with params := (parseMatText data).getD st.next_layer.params}}
    else st

/-- One document event dispatched to the handler. -/
def processEvent (st : DocState) : XmlEvent → Except String DocState
  | XmlEvent.startElement name atts => start_element st name atts
  | XmlEvent.endElement name => Except.ok (end_element st name)
  | XmlEvent.characters data => Except.ok (charactersEv st data)

/-- The full event stream run through the handler. -/
def processEvents (st : DocState) : List XmlEvent → Except String DocState
  | [] => Except.ok st
  | e :: rest =>
    match processEvent st e with
    | Except.ok st2 => processEvents st2 rest
    | Except.error msg => Except.error msg

/-- The handler's initial state (`start_document` resets the fields to it). -/
def initState : DocState := {}

/-- `parse_dlib_xml`: run the handler over the document's events, then check
the produced list is non-empty and its last record is the input record. -/
def parse_dlib_xml (events : List XmlEvent) : Except String (List Layer) := do
  let dh ← processEvents initState events
  if dh.layers.length = 0 then Except.error "No layers found in XML file!"
  else if (dh.layers.getD (dh.layers.length - 1) default).type ≠ "input" then
    Except.error "The network in the XML file is missing an input layer!"
  else Except.ok dh.layers

/-- Fixed text written before the input-type dispatch (lines 117-123). -/
def preamble : String :=
  "import caffe \nfrom caffe import layers as L, params as P\nimport numpy as np\n\n# Input tensor dimensions\nbatch_size = 1;\n"

/-- The input-size declaration derived from the terminal input record's detail
type (lines 124-145): the three recognized variants, anything else fatal. -/
def input_decl (l : Layer) : Except String String :=
  if l.detail_name = "input_rgb_image" then
    Except.ok "input_nr = 28; #WARNING, the source dlib network didn't commit to a specific input size, so we put 28 here as a default.\ninput_nc = 28; #WARNING, the source dlib network didn't commit to a specific input size, so we put 28 here as a default.\ninput_k = 3;\n"
  else if l.detail_name = "input_rgb_image_sized" then do
    let nr ← l.attr "nr"
    let nc ← l.attr "nc"
    Except.ok ("input_nr = " ++ toString nr ++ ";\ninput_nc = " ++ toString nc ++ ";\ninput_k = 3;\n")
  else if l.detail_name = "input" then
    Except.ok "input_nr = 28; #WARNING, the source dlib network didn't commit to a specific input size, so we put 28 here as a default.\ninput_nc = 28; #WARNING, the source dlib network didn't commit to a specific input size, so we put 28 here as a default.\ninput_k = 1;\n"
  else Except.error ("No known transformation from dlib's " ++ l.detail_name ++ " layer to caffe.")

/-- Fixed text opening `make_netspec` (lines 148-152). -/
def netspecHeader : String :=
  "def make_netspec():\n    # For reference, the only \"documentation\" about caffe layer parameters seems to be this page:\n    # https://github.com/BVLC/caffe/blob/master/src/caffe/proto/caffe.proto\n\n    n = caffe.NetSpec(); \n    n.data,n.label = L.MemoryData(batch_size=batch_size, channels=input_k, height=input_nr, width=input_nc, ntop=2)\n"

/-- Fixed text of `save_as_caffe_model` (lines 280-284). -/
def saveSection : String :=
  "def save_as_caffe_model(def_file, weights_file):\n    with open(def_file, 'w') as f: f.write(str(make_netspec()));\n    net = caffe.Net(def_file, caffe.TEST);\n    set_network_weights(net);\n    net.save(weights_file);\n\n"

/-- Fixed text opening `set_network_weights` (lines 291-292). -/
def weightsHeader : String :=
  "def set_network_weights(net):\n    # populate network parameters\n"

/-- The `make_netspec` emission loop over stored positions in reverse order
(input first), skipping loss and input records; returns the text emitted up
to the first error together with that error. -/
def netspecLoop (layers : List Layer) : List Nat → String × Option String
  | [] => ("", none)
  | p :: rest =>
    let l := layers.getD p default
    if l.type = "loss" ∨ l.type = "input" then netspecLoop layers rest
    else
      match translate_layer layers p l with
      | Except.ok line =>
        let t := netspecLoop layers rest
        (line ++ t.1, t.2)
      | Except.error e => ("", some e)

/-- The `set_network_weights` emission loop (reverse order, loss and input
records skipped). -/
def weightsLoop : List Layer → String × Option String
  | [] => ("", none)
  | l :: rest =>
    if l.type = "loss" ∨ l.type = "input" then weightsLoop rest
    else
      match weights_layer l with
      | Except.ok s =>
        let t := weightsLoop rest
        (s ++ t.1, t.2)
      | Except.error e => ("", some e)

/-- Observable outcome of converting one document: whether an output file was
created, the content flushed to it when the run ended, and the result. -/
structure ConvertOutcome where
  fileCreated : Bool
  fileContent : String
  result : Except String Unit
deriving Repr

/-- `convert_dlib_xml_to_cafffe_python_code`: the output `ofstream` is opened
(creating the file) before the XML is even parsed; then the preamble, the
input-type dispatch, the netspec section and the weight section are written
in order, any thrown error ending the run with the content written so far. -/
def convert_dlib_xml_to_cafffe_python_code (events : List XmlEvent) : ConvertOutcome :=
  match parse_dlib_xml events with
  | Except.error e => ⟨true, "", Except.error e⟩
  | Except.ok layers =>
    match input_decl (layers.getLast?.getD default) with
    | Except.error e => ⟨true, preamble, Except.error e⟩
    | Except.ok inputLines =>
      let content := preamble ++ inputLines ++ "\n" ++ netspecHeader
      match netspecLoop layers (List.range layers.length).reverse with
      | (s, some e) => ⟨true, content ++ s, Except.error e⟩
      | (s, none) =>
        let content := content ++ s ++ "    return n.to_proto();\n\n\n" ++ saveSection ++ weightsHeader
        match weightsLoop layers.reverse with
        | (s2, some e) => ⟨true, content ++ s2, Except.error e⟩
        | (s2, none) => ⟨true, content ++ s2, Except.ok ()⟩

/-- The two events a tag-marker element produces. -/
def tagEvents (idStr : String) : List XmlEvent :=
  [XmlEvent.startElement "layer" [("type", "tag"), ("id", idStr)], XmlEvent.endElement "layer"]

/-- Whether an event is the start of a genuine layer element (one that begins
a new record and would consume a pending tag id). -/
def isGenuineLayerStart : XmlEvent → Bool
  | XmlEvent.startElement name atts =>
    name == "layer" &&
      (match lookupAtt atts "type" with
       | Except.ok ty => ty != "skip" && ty != "tag"
       | Except.error _ => false)
  | _ => false

/-- Forget the pending tag id of a handler state. -/
def eraseTag (st : DocState) : DocState := {st with tag_id := -1}

/-! Concrete records, matrices and event streams used by the witnesses and
counterexamples. -/

/-- A loss record as the parser stores it (first in the stored list). -/
def layerLoss : Layer := {type := "loss", idx := 3, detail_name := "loss_multiclass_log"}

/-- A relu record carrying `tag_id = 5`. -/
def layerRelu5 : Layer := {type := "comp", idx := 2, detail_name := "relu", tag_id := 5}

/-- A plain convolution record. -/
def layerCon : Layer := {type := "comp", idx := 1, detail_name := "con"}

/-- The terminal input record. -/
def layerInput : Layer := {type := "input", idx := 0, detail_name := "input"}

/-- An input record that itself carries `tag_id = 7`. -/
def layerInputTag7 : Layer := {type := "input", idx := 0, detail_name := "input", tag_id := 7}

/-- A record whose input edge is redirected to tag 5. -/
def layerConSkip5 : Layer :=
  {type := "comp", idx := 6, detail_name := "con", skip_id := 5}

/-- A stored list with a tagged record between a skip consumer and the input. -/
def layersA : List Layer := [layerConSkip5, layerRelu5, layerCon, layerInput]

/-- A minimal stored list `[loss, con, input]`. -/
def layersB : List Layer := [layerLoss, layerCon, layerInput]

/-- A stored list whose input record carries a tag id. -/
def layersC : List Layer := [layerLoss, layerCon, layerInputTag7]

/-- A 2-column parameter matrix (shape never produced for a convolution by
dlib's serializer, but expressible as a parsed record). -/
def mConEx : Mat Int := ⟨2, [[1, 2], [3, 4]]⟩

/-- A single-column convolution parameter matrix. -/
def mConOk : Mat Int := ⟨1, [[1], [2], [3], [4]]⟩

/-- A one-row fully-connected parameter matrix. -/
def mFcEx : Mat Int := ⟨1, [[7]]⟩

/-- A three-row fully-connected parameter matrix. -/
def mFcOk : Mat Int := ⟨2, [[1, 2], [3, 4], [5, 6]]⟩

/-- An affine parameter matrix with an odd element count. -/
def mAffOdd : Mat Int := ⟨1, [[1], [2], [3]]⟩

/-- An affine parameter matrix with an even element count. -/
def mAffOk : Mat Int := ⟨1, [[1], [2]]⟩

/-- A max-pool record with zero padding and kernel size 0 (global pooling). -/
def layerPoolGlobal : Layer :=
  {type := "comp", idx := 4, detail_name := "max_pool",
   attributes := [("nc", 0), ("nr", 0), ("stride_x", 2), ("stride_y", 2),
                  ("padding_x", 0), ("padding_y", 0)]}

/-- Events of a well-formed two-record document (a loss layer, then the
input layer). -/
def evOK : List XmlEvent :=
  [XmlEvent.startElement "net" [],
   XmlEvent.startElement "layer" [("idx", "1"), ("type", "loss")],
   XmlEvent.startElement "loss_multiclass_log" [],
   XmlEvent.endElement "loss_multiclass_log",
   XmlEvent.endElement "layer",
   XmlEvent.startElement "layer" [("idx", "0"), ("type", "input")],
   XmlEvent.startElement "input" [],
   XmlEvent.endElement "input",
   XmlEvent.endElement "layer",
   XmlEvent.endElement "net"]

/-- Events of a document whose terminal input record has an unrecognized
detail type (`input_weird`). -/
def evBadInput : List XmlEvent :=
  [XmlEvent.startElement "net" [],
   XmlEvent.startElement "layer" [("idx", "1"), ("type", "loss")],
   XmlEvent.startElement "loss_multiclass_log" [],
   XmlEvent.endElement "loss_multiclass_log",
   XmlEvent.endElement "layer",
   XmlEvent.startElement "layer" [("idx", "0"), ("type", "input")],
   XmlEvent.startElement "input_weird" [],
   XmlEvent.endElement "input_weird",
   XmlEvent.endElement "layer",
   XmlEvent.endElement "net"]

/-- A handler state that has already seen the root element. -/
def stInDoc : DocState := {seen_first_tag := true}

/-- The layer list `evOK` parses to. -/
def parsedOK : List Layer :=
  [{type := "loss", idx := 1, detail_name := "loss_multiclass_log"},
   {type := "input", idx := 0, detail_name := "input"}]

/-- The layer list `evBadInput` parses to. -/
def parsedBad : List Layer :=
  [{type := "loss", idx := 1, detail_name := "loss_multiclass_log"},
   {type := "input", idx := 0, detail_name := "input_weird"}]

/-! Helper lemmas about `rangeIdx`, `rowm` and element counting. -/

lemma map_getD_range_eq_slice (rows : List (List α)) (a len : Nat)
    (h : a + len ≤ rows.length) :
    (List.range len).map (fun k => rows.getD (a + k) []) = (rows.drop a).take len := by
  apply List.ext_getElem
  · simp only [List.length_map, List.length_range, List.length_take, List.length_drop]
    omega
  · intro i h1 h2
    simp only [List.length_map, List.length_range] at h1
    simp only [List.getElem_map, List.getElem_range, List.getElem_take, List.getElem_drop]
    rw [List.getD_eq_getElem?_getD, List.getElem?_eq_getElem (by omega), Option.getD_some]

lemma rangeIdx_asc (a b : Nat) (hab : a ≤ b) :
    rangeIdx a b = (List.range (b + 1 - a)).map (fun k => ((a + k : Nat) : Int)) := by
  unfold rangeIdx
  rw [if_pos (by exact_mod_cast hab : (a : Int) ≤ b)]
  have h1 : ((b : Int) - a).toNat + 1 = b + 1 - a := by omega
  rw [h1]
  apply List.map_congr_left
  intro k _
  push_cast
  ring

lemma rowm_rangeIdx (m : Mat α) (a b : Nat) (hab : a ≤ b) (hb : b < m.rows.length) :
    m.rowm (rangeIdx a b) = some ⟨m.nc, (m.rows.drop a).take (b + 1 - a)⟩ := by
  rw [rangeIdx_asc a b hab]
  have hvalid : (((List.range (b + 1 - a)).map (fun k => ((a + k : Nat) : Int))).all
      (fun i => decide (0 ≤ i) && decide (i < (m.rows.length : Int)))) = true := by
    rw [List.all_eq_true]
    intro x hx
    simp only [List.mem_map, List.mem_range] at hx
    obtain ⟨k, hk, rfl⟩ := hx
    simp only [Bool.and_eq_true, decide_eq_true_eq]
    constructor
    · exact_mod_cast Nat.zero_le _
    · exact_mod_cast (by omega : a + k < m.rows.length)
  rw [Mat.rowm, if_pos hvalid]
  have hrows : ((List.range (b + 1 - a)).map (fun k => ((a + k : Nat) : Int))).map
      (fun i => m.rows.getD i.toNat []) = (m.rows.drop a).take (b + 1 - a) := by
    rw [List.map_map]
    have hfun : ((fun i : Int => m.rows.getD i.toNat []) ∘ fun k : Nat => ((a + k : Nat) : Int))
        = fun k : Nat => m.rows.getD (a + k) [] := by
      funext k
      have h2 : (((a + k : Nat) : Int)).toNat = a + k := by omega
      simp only [Function.comp_apply, h2]
    rw [hfun, map_getD_range_eq_slice m.rows a (b + 1 - a) (by omega)]
  rw [hrows]

lemma rowmOne_natCast (m : Mat α) (i : Nat) (hi : i < m.rows.length) :
    m.rowmOne (i : Int) = some ⟨m.nc, [m.rows.getD i []]⟩ := by
  rw [Mat.rowmOne, if_pos ⟨by exact_mod_cast Nat.zero_le _, by exact_mod_cast hi⟩]
  simp

lemma rowm_some_valid {m : Mat α} {idxs : List Int} {w : Mat α}
    (h : m.rowm idxs = some w) : ∀ i ∈ idxs, 0 ≤ i ∧ i < (m.rows.length : Int) := by
  by_cases hc : (idxs.all (fun i => decide (0 ≤ i) && decide (i < (m.rows.length : Int)))) = true
  · rw [List.all_eq_true] at hc
    intro i hi
    simpa using hc i hi
  · rw [Mat.rowm, if_neg hc] at h
    cases h

lemma left_mem_rangeIdx (a b : Int) : a ∈ rangeIdx a b := by
  by_cases hab : a ≤ b
  · rw [rangeIdx, if_pos hab]
    exact List.mem_map.mpr ⟨0, List.mem_range.mpr (Nat.succ_pos _), by simp⟩
  · rw [rangeIdx, if_neg hab]
    exact List.mem_map.mpr ⟨0, List.mem_range.mpr (Nat.succ_pos _), by simp⟩

lemma right_mem_rangeIdx (a b : Int) : b ∈ rangeIdx a b := by
  by_cases hab : a ≤ b
  · rw [rangeIdx, if_pos hab]
    exact List.mem_map.mpr ⟨(b - a).toNat, List.mem_range.mpr (by omega), by omega⟩
  · rw [rangeIdx, if_neg hab]
    exact List.mem_map.mpr ⟨(a - b).toNat, List.mem_range.mpr (by omega), by omega⟩

lemma elemCount_mk (nc : Nat) (rows' : List (List α)) (h : ∀ r ∈ rows', r.length = nc) :
    (⟨nc, rows'⟩ : Mat α).elemCount = rows'.length * nc := by
  unfold Mat.elemCount
  rw [List.map_congr_left h, List.map_const']
  exact List.sum_const_nat _ _

lemma filterMap_get?_length (rows' : List (List α)) (j : Nat)
    (h : ∀ r ∈ rows', j < r.length) :
    (rows'.filterMap (fun r => r.get? j)).length = rows'.length := by
  induction rows' with
  | nil => simp
  | cons r rs ih =>
    have hr : r.get? j = some (r.get ⟨j, h r (List.mem_cons_self r rs)⟩) := List.get?_eq_get _
    simp only [List.filterMap_cons, hr, List.length_cons]
    rw [ih (fun x hx => h x (List.mem_cons_of_mem _ hx))]

lemma elemCount_trans (m : Mat α) (h : m.Rect) : m.trans.elemCount = m.elemCount := by
  have htrans : m.trans.elemCount = m.nc * m.rows.length := by
    unfold Mat.trans Mat.elemCount
    rw [List.map_map]
    have hcongr : (List.range m.nc).map
        (List.length ∘ fun j => m.rows.filterMap (fun r => r.get? j))
        = (List.range m.nc).map (fun _ => m.rows.length) := by
      apply List.map_congr_left
      intro j hj
      exact filterMap_get?_length _ _ (fun r hr => by rw [h r hr]; exact List.mem_range.mp hj)
    rw [hcongr, List.map_const', List.length_range, List.sum_const_nat]
  rw [htrans, elemCount_mk m.nc m.rows h]
  exact Nat.mul_comm _ _

lemma Rect.slice {m : Mat α} (h : m.Rect) (a k : Nat) :
    ∀ r ∈ (m.rows.drop a).take k, r.length = m.nc :=
  fun r hr => h r (List.mem_of_mem_drop (List.mem_of_mem_take hr))

/-! Lemmas about the skip scan of the reference resolver. -/

lemma scanSkip_found (s : List Layer) (t : Int) (k : Nat) (hk : k < s.length)
    (htag : (s.getD k default).tag_id = t)
    (hbefore : ∀ j, j < k → (s.getD j default).tag_id ≠ t ∧ (s.getD j default).type ≠ "input") :
    scanSkip s t = ScanResult.found ((s.getD k default).caffe_layer_name) := by
  induction s generalizing k with
  | nil => exact absurd hk (by simp)
  | cons x rest ih =>
    cases k with
    | zero =>
      simp only [List.getD_cons_zero] at htag ⊢
      rw [scanSkip, if_pos htag]
    | succ k' =>
      have h0 := hbefore 0 (Nat.succ_pos _)
      simp only [List.getD_cons_zero] at h0
      rw [scanSkip, if_neg h0.1, if_neg h0.2]
      simp only [List.getD_cons_succ] at htag ⊢
      refine ih k' (by simpa using hk) htag (fun j hj => ?_)
      have hj1 := hbefore (j + 1) (by omega)
      simpa using hj1

lemma scanSkip_fatal_iff (s : List Layer) (t : Int) (hne : s ≠ [])
    (hlast : (s.getD (s.length - 1) default).type = "input")
    (honly : ∀ j, j + 1 < s.length → (s.getD j default).type ≠ "input") :
    (scanSkip s t = ScanResult.fatal ↔ ∀ k, k < s.length → (s.getD k default).tag_id ≠ t) := by
  induction s with
  | nil => exact absurd rfl hne
  | cons x rest ih =>
    by_cases hr : rest = []
    · subst hr
      simp only [List.length_cons, List.length_nil, Nat.zero_add, Nat.sub_self,
        List.getD_cons_zero] at hlast
      by_cases hx : x.tag_id = t
      · rw [scanSkip, if_pos hx]
        constructor
        · intro h
          exact ScanResult.noConfusion h
        · intro hall
          exact absurd hx (hall 0 (by simp))
      · rw [scanSkip, if_neg hx, if_pos hlast]
        constructor
        · intro _ k hk
          have hk0 : k = 0 := by simpa using hk
          subst hk0
          simpa using hx
        · intro _
          rfl
    · have hrl : 1 ≤ rest.length := List.length_pos.mpr hr
      have hx_not_input : x.type ≠ "input" := by
        have := honly 0 (by simp only [List.length_cons]; omega)
        simpa using this
      have hlast' : (rest.getD (rest.length - 1) default).type = "input" := by
        have he : (x :: rest).getD ((rest.length - 1) + 1) default
            = rest.getD (rest.length - 1) default := List.getD_cons_succ
        have hlen : (x :: rest).length - 1 = (rest.length - 1) + 1 := by
          simp only [List.length_cons]
          omega
        rw [hlen, he] at hlast
        exact hlast
      have honly' : ∀ j, j + 1 < rest.length → (rest.getD j default).type ≠ "input" := by
        intro j hj
        have := honly (j + 1) (by simp only [List.length_cons]; omega)
        simpa using this
      by_cases hx : x.tag_id = t
      · rw [scanSkip, if_pos hx]
        constructor
        · intro h
          exact ScanResult.noConfusion h
        · intro hall
          exact absurd hx (hall 0 (by simp))
      · rw [scanSkip, if_neg hx, if_neg hx_not_input, ih hr hlast' honly']
        constructor
        · intro hall k hk
          cases k with
          | zero => simpa using hx
          | succ k' =>
            have : k' < rest.length := by simp only [List.length_cons] at hk; omega
            simpa using hall k' this
        · intro hall k hk
          have := hall (k + 1) (by simp only [List.length_cons]; omega)
          simpa using this

lemma getD_drop (l : List Layer) (p j : Nat) :
    (l.drop p).getD j default = l.getD (p + j) default := by
  rw [List.getD_eq_getElem?_getD, List.getD_eq_getElem?_getD, List.getElem?_drop]

/-- C1: for every parser-produced layer list (terminal input record, no other
input record) and every non-input record at stored position `p` with
`skip_id = t ≠ -1`, the resolver returns the generated name of the nearest
record after `p` (scanning toward the input end of the stored list) whose
`tag_id` is `t`, and raises the "skip back to a non-existing layer" error
exactly when no record after `p` carries `tag_id = t` (the scan then having
reached the input record without a match). -/
theorem claim1_skip_resolution (layers : List Layer) (p : Nat) (t : Int)
    (hlast : (layers.getD (layers.length - 1) default).type = "input")
    (honly : ∀ j, j < layers.length - 1 → (layers.getD j default).type ≠ "input")
    (hp : p + 1 < layers.length)
    (hsk : (layers.getD p default).skip_id = t)
    (ht : t ≠ -1) :
    (∀ k, p < k → k < layers.length → (layers.getD k default).tag_id = t →
        (∀ j, p < j → j < k → (layers.getD j default).tag_id ≠ t) →
        find_input_layer_caffe_name layers p
          = ScanResult.found ((layers.getD k default).caffe_layer_name))
    ∧ (find_input_layer_caffe_name layers p = ScanResult.fatal
        ↔ ∀ k, p < k → k < layers.length → (layers.getD k default).tag_id ≠ t) := by
  have hpl : p < layers.length := by omega
  have hgp : layers.get? p = some (layers.getD p default) := by
    rw [List.get?_eq_getElem?, List.getElem?_eq_getElem hpl, List.getD_eq_getElem?_getD,
      List.getElem?_eq_getElem hpl, Option.getD_some]
  have hfind : find_input_layer_caffe_name layers p = scanSkip (layers.drop (p + 1)) t := by
    rw [find_input_layer_caffe_name, hgp]
    simp only
    rw [hsk, find_layer_caffe_name, if_neg ht]
  have hslen : (layers.drop (p + 1)).length = layers.length - (p + 1) := List.length_drop _ _
  have hsne : layers.drop (p + 1) ≠ [] :=
    List.length_pos.mp (by rw [hslen]; omega)
  constructor
  · intro k hpk hk htag hmin
    rw [hfind]
    have hks : k - (p + 1) < (layers.drop (p + 1)).length := by rw [hslen]; omega
    have hidx : p + 1 + (k - (p + 1)) = k := by omega
    have htag' : ((layers.drop (p + 1)).getD (k - (p + 1)) default).tag_id = t := by
      rw [getD_drop, hidx]
      exact htag
    have hbef : ∀ j, j < k - (p + 1) →
        ((layers.drop (p + 1)).getD j default).tag_id ≠ t
          ∧ ((layers.drop (p + 1)).getD j default).type ≠ "input" := by
      intro j hj
      rw [getD_drop]
      exact ⟨hmin (p + 1 + j) (by omega) (by omega), honly (p + 1 + j) (by omega)⟩
    rw [scanSkip_found _ t (k - (p + 1)) hks htag' hbef, getD_drop, hidx]
  · have hl : ((layers.drop (p + 1)).getD ((layers.drop (p + 1)).length - 1) default).type
        = "input" := by
      rw [hslen, getD_drop]
      have : p + 1 + (layers.length - (p + 1) - 1) = layers.length - 1 := by omega
      rw [this]
      exact hlast
    have ho : ∀ j, j + 1 < (layers.drop (p + 1)).length →
        ((layers.drop (p + 1)).getD j default).type ≠ "input" := by
      intro j hj
      rw [hslen] at hj
      rw [getD_drop]
      exact honly (p + 1 + j) (by omega)
    rw [hfind, scanSkip_fatal_iff _ t hsne hl ho]
    constructor
    · intro hall k hpk hk
      have := hall (k - (p + 1)) (by rw [hslen]; omega)
      rw [getD_drop] at this
      have hidx : p + 1 + (k - (p + 1)) = k := by omega
      rw [hidx] at this
      exact this
    · intro hall j hj
      rw [hslen] at hj
      rw [getD_drop]
      exact hall (p + 1 + j) (by omega) (by omega)

/-- Witness for C1: in `[con(skip 5), relu(tag 5), con, input]`, the record
at position 0 resolves its skip to the relu record at position 1. -/
theorem claim1_skip_resolution_witness :
    find_input_layer_caffe_name layersA 0
      = ScanResult.found ((layersA.getD 1 default).caffe_layer_name) :=
  (claim1_skip_resolution layersA 0 5 (by decide) (by decide) (by decide) (by decide)
      (by decide)).1
    1 (by decide) (by decide) (by decide) (fun j h1 h2 => absurd (h1.trans h2) (by omega))

/-- C2 counterexample: in the stored list `[loss, con, input]`, the record at
position 1 (`con`, no `skip_id`) resolves to the record at position 2 (the
input record, generated name `"data"`), not to the record at position
`1 - 1 = 0` claimed by the spec's `list[i-1]` indexing. -/
theorem claim2_counterexample :
    find_input_layer_caffe_name layersB 1 = ScanResult.found "data"
    ∧ (layersB.getD 2 default).caffe_layer_name = "data"
    ∧ (layersB.getD 0 default).caffe_layer_name = "loss_multiclass_log3"
    ∧ find_input_layer_caffe_name layersB 1
        ≠ ScanResult.found ((layersB.getD 0 default).caffe_layer_name) := by
  refine ⟨rfl, rfl, rfl, ?_⟩
  decide

/-- C2 (amended): for a parser-produced list and a translated (non-input,
non-loss) record at stored position `p` with no `skip_id`, the resolver
returns the generated name of the record at stored position `p + 1` — the
record one step toward the input end (its predecessor in forward graph
order and in the reverse-iteration processing order). -/
theorem claim2_amended (layers : List Layer) (p : Nat)
    (hp : p < layers.length)
    (hlast : (layers.getD (layers.length - 1) default).type = "input")
    (htype : (layers.getD p default).type ≠ "input")
    (_hloss : (layers.getD p default).type ≠ "loss")
    (hskip : (layers.getD p default).skip_id = -1) :
    find_input_layer_caffe_name layers p
      = ScanResult.found ((layers.getD (p + 1) default).caffe_layer_name) := by
  have hp1 : p + 1 < layers.length := by
    rcases Nat.lt_or_ge (p + 1) layers.length with h | h
    · exact h
    · have hpe : p = layers.length - 1 := by omega
      exact absurd (hpe ▸ hlast) htype
  have hgp : layers.get? p = some (layers.getD p default) := by
    rw [List.get?_eq_getElem?, List.getElem?_eq_getElem hp, List.getD_eq_getElem?_getD,
      List.getElem?_eq_getElem hp, Option.getD_some]
  have hgp1 : layers.get? (p + 1) = some (layers.getD (p + 1) default) := by
    rw [List.get?_eq_getElem?, List.getElem?_eq_getElem hp1, List.getD_eq_getElem?_getD,
      List.getElem?_eq_getElem hp1, Option.getD_some]
  rw [find_input_layer_caffe_name, hgp]
  simp only
  rw [hskip, find_layer_caffe_name, if_pos rfl, hgp1]

/-- Witness for C2 (amended): the `con` record of `[loss, con, input]`
resolves to the input record's name `"data"`. -/
theorem claim2_amended_witness :
    find_input_layer_caffe_name layersB 1
      = ScanResult.found ((layersB.getD 2 default).caffe_layer_name) :=
  claim2_amended layersB 1 (by decide) (by decide) (by decide) (by decide) (by decide)

/-- C9: the skip scan tests the tag match before the input-termination test,
so when the terminal input record itself carries the sought `tag_id`, the
resolver returns the input record's generated name `"data"` instead of
raising the non-existing-layer error. -/
theorem claim9_input_tag_match (layers : List Layer) (p : Nat) (t : Int)
    (hlast : (layers.getD (layers.length - 1) default).type = "input")
    (honly : ∀ j, j < layers.length - 1 → (layers.getD j default).type ≠ "input")
    (hp : p + 1 < layers.length)
    (ht : t ≠ -1)
    (htag : (layers.getD (layers.length - 1) default).tag_id = t)
    (hnone : ∀ k, k < layers.length - 1 → p < k → (layers.getD k default).tag_id ≠ t) :
    find_layer_caffe_name layers p t = ScanResult.found "data" := by
  have hfind : find_layer_caffe_name layers p t = scanSkip (layers.drop (p + 1)) t := by
    rw [find_layer_caffe_name, if_neg ht]
  have hslen : (layers.drop (p + 1)).length = layers.length - (p + 1) := List.length_drop _ _
  have hks : layers.length - 1 - (p + 1) < (layers.drop (p + 1)).length := by
    rw [hslen]; omega
  have hidx : p + 1 + (layers.length - 1 - (p + 1)) = layers.length - 1 := by omega
  have htag' : ((layers.drop (p + 1)).getD (layers.length - 1 - (p + 1)) default).tag_id
      = t := by
    rw [getD_drop, hidx]
    exact htag
  have hbef : ∀ j, j < layers.length - 1 - (p + 1) →
      ((layers.drop (p + 1)).getD j default).tag_id ≠ t
        ∧ ((layers.drop (p + 1)).getD j default).type ≠ "input" := by
    intro j hj
    rw [getD_drop]
    exact ⟨hnone (p + 1 + j) (by omega) (by omega), honly (p + 1 + j) (by omega)⟩
  rw [hfind, scanSkip_found _ t (layers.length - 1 - (p + 1)) hks htag' hbef,
    getD_drop, hidx, Layer.caffe_layer_name, if_pos hlast]

/-- Witness for C9: in `[loss, con, input(tag 7)]`, resolving tag 7 from
position 0 returns `"data"` rather than the fatal error. -/
theorem claim9_input_tag_match_witness :
    find_layer_caffe_name layersC 0 7 = ScanResult.found "data" :=
  claim9_input_tag_match layersC 0 7 (by decide) (by decide) (by decide) (by decide)
    (by decide) (by decide)

/-! Lemmas about the parameter relayout. -/

lemma relayout_con_spec (m : Mat α) (n : Int) (hnc : m.nc = 1) (h1 : 1 ≤ n)
    (h2 : n ≤ m.size - 1) :
    relayout_con m n = some (conSpecBlocks m n.toNat) := by
  have hsize : m.size = (m.rows.length : Int) := by
    rw [Mat.size, hnc, Nat.mul_one]
  have hbounds : 1 ≤ n.toNat ∧ n.toNat ≤ m.rows.length - 1 ∧ 2 ≤ m.rows.length := by
    rw [hsize] at h2
    omega
  have w1 := rowm_rangeIdx m 0 (m.rows.length - n.toNat - 1) (by omega) (by omega)
  rw [Nat.cast_zero, List.drop_zero] at w1
  have ha1 : m.rows.length - n.toNat - 1 + 1 - 0 = m.rows.length - n.toNat := by omega
  rw [ha1] at w1
  have w2 := rowm_rangeIdx m (m.rows.length - n.toNat) (m.rows.length - 1)
    (by omega) (by omega)
  have ha2 : m.rows.length - 1 + 1 - (m.rows.length - n.toNat) = n.toNat := by omega
  rw [ha2] at w2
  have htake : (m.rows.drop (m.rows.length - n.toNat)).take n.toNat
      = m.rows.drop (m.rows.length - n.toNat) :=
    List.take_of_length_le (by rw [List.length_drop]; omega)
  rw [htake] at w2
  have e1 : m.size - n - 1 = ((m.rows.length - n.toNat - 1 : Nat) : Int) := by
    rw [hsize]; omega
  have e2 : m.size - n = ((m.rows.length - n.toNat : Nat) : Int) := by
    rw [hsize]; omega
  have e3 : m.size - 1 = ((m.rows.length - 1 : Nat) : Int) := by
    rw [hsize]; omega
  rw [relayout_con, e1, e2, e3, w1, w2]
  rfl

lemma relayout_con_some_shape {m : Mat α} {n : Int} {wb : Mat α × Mat α}
    (h : relayout_con m n = some wb) :
    m.nc = 1 ∧ 1 ≤ n ∧ n ≤ m.size - 1 := by
  rcases hw : m.rowm (rangeIdx 0 (m.size - n - 1)) with _ | w
  · rw [relayout_con, hw] at h
    exact absurd h (by simp)
  rcases hb : m.rowm (rangeIdx (m.size - n) (m.size - 1)) with _ | b
  · rw [relayout_con, hw, hb] at h
    exact absurd h (by simp)
  have hv1 := rowm_some_valid hw
  have hv2 := rowm_some_valid hb
  have m1 := hv1 _ (right_mem_rangeIdx 0 (m.size - n - 1))
  have m2l := hv2 _ (left_mem_rangeIdx (m.size - n) (m.size - 1))
  have m2r := hv2 _ (right_mem_rangeIdx (m.size - n) (m.size - 1))
  have hsz : m.size = ((m.rows.length * m.nc : Nat) : Int) := rfl
  rw [hsz] at m1 m2l m2r
  have hLpos : 0 < m.rows.length := by
    rcases Nat.eq_zero_or_pos m.rows.length with hL0 | hLpos
    · rw [hL0, Nat.zero_mul] at m2r
      exact absurd m2r.1 (by norm_num)
    · exact hLpos
  have hCpos : 0 < m.nc := by
    rcases Nat.eq_zero_or_pos m.nc with hC0 | hCpos
    · rw [hC0, Nat.mul_zero] at m2r
      exact absurd m2r.1 (by norm_num)
    · exact hCpos
  have hle : m.rows.length * m.nc ≤ m.rows.length := by
    obtain ⟨ha, hb'⟩ := m2r
    omega
  have hC1 : m.nc = 1 := by
    have h2' : m.rows.length * m.nc ≤ m.rows.length * 1 := by
      rw [Nat.mul_one]
      exact hle
    have := Nat.le_of_mul_le_mul_left h2' hLpos
    omega
  refine ⟨hC1, ?_, ?_⟩
  · rw [hC1, Nat.mul_one] at m2l
    omega
  · rw [hsz, hC1, Nat.mul_one]
    rw [hC1, Nat.mul_one] at m1
    omega

lemma relayout_fc_spec (m : Mat α) (h2 : 2 ≤ m.rows.length) :
    relayout_fc m = some (fcSpecBlocks m) := by
  have w1 := rowm_rangeIdx m 0 (m.rows.length - 2) (by omega) (by omega)
  rw [Nat.cast_zero, List.drop_zero] at w1
  have ha1 : m.rows.length - 2 + 1 - 0 = m.rows.length - 1 := by omega
  rw [ha1] at w1
  have hdl : m.rows.take (m.rows.length - 1) = m.rows.dropLast :=
    (List.dropLast_eq_take m.rows).symm
  rw [hdl] at w1
  have w2 := rowmOne_natCast m (m.rows.length - 1) (by omega)
  have hlastrow : [m.rows.getD (m.rows.length - 1) []] = m.rows.getLast?.toList := by
    rw [List.getD_eq_getElem?_getD, List.getElem?_eq_getElem (by omega : m.rows.length - 1 < m.rows.length),
      Option.getD_some, List.getLast?_eq_getElem?,
      List.getElem?_eq_getElem (by omega : m.rows.length - 1 < m.rows.length)]
    rfl
  rw [hlastrow] at w2
  have e1 : m.nr - 2 = ((m.rows.length - 2 : Nat) : Int) := by
    rw [Mat.nr]; omega
  have e2 : m.nr - 1 = ((m.rows.length - 1 : Nat) : Int) := by
    rw [Mat.nr]; omega
  rw [relayout_fc, e1, e2, w1, w2]
  rfl

lemma relayout_fc_some_shape {m : Mat α} {wb : Mat α × Mat α}
    (h : relayout_fc m = some wb) : 2 ≤ m.rows.length := by
  rcases hw : m.rowm (rangeIdx 0 (m.nr - 2)) with _ | w
  · rw [relayout_fc, hw] at h
    exact absurd h (by simp)
  · have hv := rowm_some_valid hw
    have m1 := hv _ (right_mem_rangeIdx 0 (m.nr - 2))
    have hnr : m.nr = (m.rows.length : Int) := rfl
    rw [hnr] at m1
    omega

lemma relayout_affine_eq (m : Mat α) (d : Nat) (hd : (d : Int) = m.size / 2)
    (h1 : 1 ≤ d) (h2 : 2 * d ≤ m.rows.length) :
    relayout_affine m = some
      ((⟨m.nc, m.rows.take d⟩ : Mat α).trans,
       (⟨m.nc, (m.rows.drop d).take d⟩ : Mat α).trans) := by
  have w1 := rowm_rangeIdx m 0 (d - 1) (by omega) (by omega)
  rw [Nat.cast_zero, List.drop_zero] at w1
  have ha1 : d - 1 + 1 - 0 = d := by omega
  rw [ha1] at w1
  have w2 := rowm_rangeIdx m d (2 * d - 1) (by omega) (by omega)
  have ha2 : 2 * d - 1 + 1 - d = d := by omega
  rw [ha2] at w2
  have e1 : m.size / 2 - 1 = ((d - 1 : Nat) : Int) := by omega
  have e3 : 2 * (m.size / 2) - 1 = ((2 * d - 1 : Nat) : Int) := by omega
  have e2 : m.size / 2 = ((d : Nat) : Int) := hd.symm
  rw [relayout_affine, e1, e3, e2, w1, w2]
  rfl

lemma relayout_affine_some_shape {m : Mat α} {gb : Mat α × Mat α}
    (h : relayout_affine m = some gb) :
    m.nc = 1 ∧ 1 ≤ m.size / 2 ∧ 2 * (m.size / 2) - 1 < (m.rows.length : Int) := by
  rcases hg : m.rowm (rangeIdx 0 (m.size / 2 - 1)) with _ | g
  · rw [relayout_affine, hg] at h
    exact absurd h (by simp)
  rcases hb : m.rowm (rangeIdx (m.size / 2) (2 * (m.size / 2) - 1)) with _ | b
  · rw [relayout_affine, hg, hb] at h
    exact absurd h (by simp)
  have hv1 := rowm_some_valid hg
  have hv2 := rowm_some_valid hb
  have m1 := hv1 _ (right_mem_rangeIdx 0 (m.size / 2 - 1))
  have m2 := hv2 _ (right_mem_rangeIdx (m.size / 2) (2 * (m.size / 2) - 1))
  have hsz : m.size = ((m.rows.length * m.nc : Nat) : Int) := rfl
  rw [hsz] at m1 m2
  have hLpos : 0 < m.rows.length := by
    rcases Nat.eq_zero_or_pos m.rows.length with hL0 | hLpos
    · exfalso
      rw [hL0, Nat.zero_mul] at m1
      revert m1
      norm_num
    · exact hLpos
  have hCpos : 0 < m.nc := by
    rcases Nat.eq_zero_or_pos m.nc with hC0 | hCpos
    · exfalso
      rw [hC0, Nat.mul_zero] at m1
      revert m1
      norm_num
    · exact hCpos
  have hC1 : m.nc = 1 := by
    by_contra hne
    have hC2 : 2 ≤ m.nc := by omega
    have hmul : m.rows.length * 2 ≤ m.rows.length * m.nc := Nat.mul_le_mul_left _ hC2
    obtain ⟨a2, b2⟩ := m2
    omega
  refine ⟨hC1, ?_, ?_⟩
  · rw [hsz]
    omega
  · rw [hsz]
    exact m2.2

lemma elemCount_take_drop (m : Mat α) (k : Nat) :
    (⟨m.nc, m.rows.take k⟩ : Mat α).elemCount + (⟨m.nc, m.rows.drop k⟩ : Mat α).elemCount
      = m.elemCount := by
  unfold Mat.elemCount
  conv_rhs => rw [← List.take_append_drop k m.rows]
  rw [List.map_append, List.sum_append]

/-- C3 counterexample: for a 2-column, 2-row convolution parameter matrix and
`num_filters = 1` the relayout computes row ranges from `size()` (= 4), runs
past the matrix's two rows, and emits nothing (assertion/undefined behaviour),
while the claim's final-rows split is well defined. -/
theorem claim3_counterexample :
    relayout_con mConEx 1 = none
    ∧ relayout_con mConEx 1 ≠ some (conSpecBlocks mConEx 1) := by
  refine ⟨rfl, ?_⟩
  decide

/-- C3 (amended): for a convolution record whose parameter matrix is a single
column (the layout dlib's serializer emits, making row count and element
count coincide) and whose `num_filters = n` satisfies `1 ≤ n ≤ rows - 1`,
the relayout emits exactly two blocks: all rows except the final `n`,
transposed, and the final `n` rows, transposed. -/
theorem claim3_amended (α : Type) (m : Mat α) (n : Int) (hnc : m.nc = 1)
    (h1 : 1 ≤ n) (h2 : n ≤ m.size - 1) :
    relayout_con m n = some (conSpecBlocks m n.toNat) :=
  relayout_con_spec m n hnc h1 h2

/-- Witness for C3 (amended): the 4-row single-column matrix with one filter. -/
theorem claim3_amended_witness :
    relayout_con mConOk 1 = some (conSpecBlocks mConOk 1) :=
  claim3_amended Int mConOk 1 (by decide) (by decide) (by decide)

/-- C5 counterexample: a 1-row (non-empty) fully-connected parameter matrix
makes the weights row range `range(0, -1)` invalid (row `-1`), so the
relayout emits nothing, while the claim's all-but-last-row/last-row split is
well defined. -/
theorem claim5_counterexample :
    relayout_fc mFcEx = none
    ∧ relayout_fc mFcEx ≠ some (fcSpecBlocks mFcEx) := by
  refine ⟨rfl, ?_⟩
  decide

/-- C5 (amended): for a fully-connected-with-bias record whose parameter
matrix has at least two rows, the relayout emits a weights block equal to all
rows except the last, transposed, and a bias block equal to the last row, not
transposed. -/
theorem claim5_amended (α : Type) (m : Mat α) (h2 : 2 ≤ m.rows.length) :
    relayout_fc m = some (fcSpecBlocks m) :=
  relayout_fc_spec m h2

/-- Witness for C5 (amended): a 3-row, 2-column matrix. -/
theorem claim5_amended_witness :
    relayout_fc mFcOk = some (fcSpecBlocks mFcOk) :=
  claim5_amended Int mFcOk (by decide)

/-- C4 counterexample: an affine record with a 3-element parameter column
splits into `size/2 = 1` gamma row and 1 beta row, emitting 2 elements from a
3-element source: the relayout is not element-count preserving there. -/
theorem claim4_counterexample :
    relayout_affine mAffOdd = some (⟨1, [[1]]⟩, ⟨1, [[2]]⟩)
    ∧ (relayout_affine mAffOdd).map (fun gb => gb.1.elemCount + gb.2.elemCount) = some 2
    ∧ mAffOdd.elemCount = 3
    ∧ (relayout_affine mAffOdd).map (fun gb => gb.1.elemCount + gb.2.elemCount)
        ≠ some mAffOdd.elemCount := by
  refine ⟨rfl, rfl, rfl, ?_⟩
  decide

/-- C4 (amended): whenever the parameter relayout of a parameter-bearing
translated layer emits its blocks, the total element count of the emitted
blocks equals the total element count of the source matrix — except that the
affine branch requires the source element count to be even (the gamma/beta
layout the serializer guarantees); an odd count loses one element. -/
theorem claim4_amended (α : Type) (m : Mat α) (hrect : m.Rect) :
    (∀ n wb, relayout_con m n = some wb → wb.1.elemCount + wb.2.elemCount = m.elemCount)
    ∧ (∀ wb, relayout_fc m = some wb → wb.1.elemCount + wb.2.elemCount = m.elemCount)
    ∧ (relayout_fc_no_bias m).elemCount = m.elemCount
    ∧ (∀ gb, (2 : Int) ∣ m.size → relayout_affine m = some gb →
        gb.1.elemCount + gb.2.elemCount = m.elemCount) := by
  refine ⟨?_, ?_, ?_, ?_⟩
  · intro n wb h
    obtain ⟨hnc, h1, h2⟩ := relayout_con_some_shape h
    rw [relayout_con_spec m n hnc h1 h2] at h
    obtain rfl := Option.some.inj h
    have hT : (⟨m.nc, m.rows.take (m.rows.length - n.toNat)⟩ : Mat α).trans.elemCount
        = (⟨m.nc, m.rows.take (m.rows.length - n.toNat)⟩ : Mat α).elemCount :=
      elemCount_trans _ (fun r hr => hrect r (List.mem_of_mem_take hr))
    have hD : (⟨m.nc, m.rows.drop (m.rows.length - n.toNat)⟩ : Mat α).trans.elemCount
        = (⟨m.nc, m.rows.drop (m.rows.length - n.toNat)⟩ : Mat α).elemCount :=
      elemCount_trans _ (fun r hr => hrect r (List.mem_of_mem_drop hr))
    unfold conSpecBlocks
    dsimp only
    rw [hT, hD]
    exact elemCount_take_drop m _
  · intro wb h
    have hL := relayout_fc_some_shape h
    rw [relayout_fc_spec m hL] at h
    obtain rfl := Option.some.inj h
    have hrectDL : ∀ r ∈ m.rows.dropLast, r.length = m.nc :=
      fun r hr => hrect r (List.dropLast_subset m.rows hr)
    have hT : (⟨m.nc, m.rows.dropLast⟩ : Mat α).trans.elemCount
        = (⟨m.nc, m.rows.dropLast⟩ : Mat α).elemCount :=
      elemCount_trans _ hrectDL
    have hw : (⟨m.nc, m.rows.dropLast⟩ : Mat α).elemCount
        = (m.rows.length - 1) * m.nc := by
      rw [elemCount_mk _ _ hrectDL, List.length_dropLast]
    have hlast : m.rows.getLast?.toList = [m.rows.getD (m.rows.length - 1) []] := by
      rw [List.getLast?_eq_getElem?,
        List.getElem?_eq_getElem (by omega : m.rows.length - 1 < m.rows.length),
        List.getD_eq_getElem?_getD,
        List.getElem?_eq_getElem (by omega : m.rows.length - 1 < m.rows.length)]
      rfl
    have hb : (⟨m.nc, m.rows.getLast?.toList⟩ : Mat α).elemCount = m.nc := by
      rw [hlast, elemCount_mk _ _ ?hrow]
      · exact Nat.one_mul _
      case hrow =>
        intro r hr
        have hr' : r = m.rows.getD (m.rows.length - 1) [] := by simpa using hr
        subst hr'
        apply hrect
        rw [List.getD_eq_getElem?_getD,
          List.getElem?_eq_getElem (by omega : m.rows.length - 1 < m.rows.length),
          Option.getD_some]
        exact List.getElem_mem _
    unfold fcSpecBlocks
    dsimp only
    rw [hT, hw, hb, elemCount_mk m.nc m.rows hrect]
    obtain ⟨L', hL'⟩ : ∃ L', m.rows.length = L' + 1 := ⟨m.rows.length - 1, by omega⟩
    rw [hL']
    simp [Nat.succ_mul]
  · exact elemCount_trans m hrect
  · intro gb hdvd h
    obtain ⟨hnc, hD1, hDL⟩ := relayout_affine_some_shape h
    have hd0 : 0 ≤ m.size / 2 := by omega
    have hd : (((m.size / 2).toNat : Nat) : Int) = m.size / 2 := Int.toNat_of_nonneg hd0
    have h1 : 1 ≤ (m.size / 2).toNat := by omega
    have h2 : 2 * (m.size / 2).toNat ≤ m.rows.length := by omega
    rw [relayout_affine_eq m (m.size / 2).toNat hd h1 h2] at h
    obtain rfl := Option.some.inj h
    have hT1 : (⟨m.nc, m.rows.take (m.size / 2).toNat⟩ : Mat α).trans.elemCount
        = (⟨m.nc, m.rows.take (m.size / 2).toNat⟩ : Mat α).elemCount :=
      elemCount_trans _ (fun r hr => hrect r (List.mem_of_mem_take hr))
    have hT2 : (⟨m.nc, (m.rows.drop (m.size / 2).toNat).take (m.size / 2).toNat⟩ : Mat α).trans.elemCount
        = (⟨m.nc, (m.rows.drop (m.size / 2).toNat).take (m.size / 2).toNat⟩ : Mat α).elemCount :=
      elemCount_trans _ (fun r hr => hrect r (List.mem_of_mem_drop (List.mem_of_mem_take hr)))
    have hg : (⟨m.nc, m.rows.take (m.size / 2).toNat⟩ : Mat α).elemCount
        = (m.size / 2).toNat * m.nc := by
      rw [elemCount_mk _ _ (fun r hr => hrect r (List.mem_of_mem_take hr)),
        List.length_take, Nat.min_eq_left (by omega)]
    have hb : (⟨m.nc, (m.rows.drop (m.size / 2).toNat).take (m.size / 2).toNat⟩ : Mat α).elemCount
        = (m.size / 2).toNat * m.nc := by
      rw [elemCount_mk _ _ (fun r hr => hrect r (List.mem_of_mem_drop (List.mem_of_mem_take hr))),
        List.length_take, List.length_drop, Nat.min_eq_left (by omega)]
    dsimp only
    rw [hT1, hT2, hg, hb, elemCount_mk m.nc m.rows hrect, hnc, Nat.mul_one, Nat.mul_one]
    have hsz : m.size = ((m.rows.length * m.nc : Nat) : Int) := rfl
    rw [hnc, Nat.mul_one] at hsz
    omega

/-- Witness for C4 (amended): the fully-connected conjunct applied to a
2-row matrix. -/
theorem claim4_amended_witness :
    mAffOk.Rect
    ∧ relayout_fc mAffOk = some (⟨1, [[1]]⟩, ⟨1, [[2]]⟩)
    ∧ (⟨1, [[1]]⟩ : Mat Int).elemCount + (⟨1, [[2]]⟩ : Mat Int).elemCount
        = mAffOk.elemCount :=
  ⟨by decide, rfl, (claim4_amended Int mAffOk (by decide)).2.1 _ rfl⟩

/-! The pooling translation (claim C7). -/

lemma exc_bind_ok (a : A) (f : A → Except String B) :
    (Except.ok a >>= f : Except String B) = f a := rfl

/-- C7: for a pooling record whose attributes are all present, the
translation raises a fatal error exactly when `padding_x ≠ 0` or
`padding_y ≠ 0`; when both paddings are zero and the kernel attribute `nc`
is `0`, the layer is emitted with global pooling instead of explicit kernel
dimensions. -/
theorem claim7_pool_padding (isMax : Bool) (inputName : String) (l : Layer)
    (nc px py sx sy : Int)
    (hnc : l.attr "nc" = Except.ok nc)
    (hpx : l.attr "padding_x" = Except.ok px)
    (hpy : l.attr "padding_y" = Except.ok py)
    (hsx : l.attr "stride_x" = Except.ok sx)
    (hsy : l.attr "stride_y" = Except.ok sy)
    (hnr : nc ≠ 0 → ∃ v, l.attr "nr" = Except.ok v) :
    ((∃ msg, translate_pool isMax inputName l = Except.error msg) ↔ (px ≠ 0 ∨ py ≠ 0))
    ∧ (px = 0 → py = 0 → nc = 0 →
        translate_pool isMax inputName l
          = Except.ok ⟨isMax, inputName, true, none, none, sx, sy, px, py⟩) := by
  have hevalErr : (px ≠ 0 ∨ py ≠ 0) →
      translate_pool isMax inputName l
        = Except.error "dlib and caffe implement pooling with non-zero padding differently, so you can't convert a network with such pooling layers." := by
    intro hpad
    by_cases hc : nc = 0
    · simp only [translate_pool, hnc, exc_bind_ok, hc]
      simp only [if_true, exc_bind_ok, hpx, hpy, if_pos hpad]
    · obtain ⟨v, hv⟩ := hnr hc
      simp only [translate_pool, hnc, exc_bind_ok, if_neg hc, hv, hpx, hpy, if_pos hpad]
  have hevalOk0 : px = 0 → py = 0 → nc = 0 →
      translate_pool isMax inputName l
        = Except.ok ⟨isMax, inputName, true, none, none, sx, sy, px, py⟩ := by
    intro hx hy hc
    have hpad : ¬(px ≠ 0 ∨ py ≠ 0) := by
      push_neg
      exact ⟨hx, hy⟩
    simp only [translate_pool, hnc, exc_bind_ok, hc]
    simp only [if_true, exc_bind_ok, hpx, hpy, if_neg hpad, hsx, hsy]
  have hevalOk1 : px = 0 → py = 0 → nc ≠ 0 →
      ∃ v, translate_pool isMax inputName l
        = Except.ok ⟨isMax, inputName, false, some nc, some v, sx, sy, px, py⟩ := by
    intro hx hy hc
    obtain ⟨v, hv⟩ := hnr hc
    have hpad : ¬(px ≠ 0 ∨ py ≠ 0) := by
      push_neg
      exact ⟨hx, hy⟩
    refine ⟨v, ?_⟩
    simp only [translate_pool, hnc, exc_bind_ok, if_neg hc, hv, hpx, hpy, if_neg hpad,
      hsx, hsy]
  refine ⟨⟨?_, ?_⟩, hevalOk0⟩
  · rintro ⟨msg, hm⟩
    by_contra hpad
    push_neg at hpad
    by_cases hc : nc = 0
    · rw [hevalOk0 hpad.1 hpad.2 hc] at hm
      exact Except.noConfusion hm
    · obtain ⟨v, hv⟩ := hevalOk1 hpad.1 hpad.2 hc
      rw [hv] at hm
      exact Except.noConfusion hm
  · intro hpad
    exact ⟨_, hevalErr hpad⟩

/-- Witness for C7: a zero-padding, kernel-size-0 max-pool record translates
to global pooling. -/
theorem claim7_pool_padding_witness :
    translate_pool true "data" layerPoolGlobal
      = Except.ok ⟨true, "data", true, none, none, 2, 2, 0, 0⟩ :=
  (claim7_pool_padding true "data" layerPoolGlobal 0 0 0 2 2 rfl rfl rfl rfl rfl
      (fun h => absurd rfl h)).2 rfl rfl rfl

/-! The parser's postconditions (claim C6) and the conversion driver's
behaviour on an unrecognized input type (claim C8). -/

lemma exc_bind_error (e : String) (f : A → Except String B) :
    (Except.error e >>= f : Except String B) = Except.error e := rfl

/-- C6: after the full event stream is consumed, `parse_dlib_xml` checks that
the produced layer list is non-empty and that its last record has the input
kind; violating either condition raises the corresponding fatal error, and
every returned list satisfies both conditions. -/
theorem claim6_parser_postconditions (ev : List XmlEvent) :
    (∀ l, parse_dlib_xml ev = Except.ok l →
        l ≠ [] ∧ (l.getD (l.length - 1) default).type = "input")
    ∧ (∀ st, processEvents initState ev = Except.ok st →
        (st.layers = [] →
          parse_dlib_xml ev = Except.error "No layers found in XML file!")
        ∧ (st.layers ≠ [] →
            (st.layers.getD (st.layers.length - 1) default).type ≠ "input" →
            parse_dlib_xml ev
              = Except.error "The network in the XML file is missing an input layer!")) := by
  constructor
  · intro l h
    cases hp : processEvents initState ev with
    | error e =>
      rw [parse_dlib_xml, hp, exc_bind_error] at h
      exact Except.noConfusion h
    | ok st =>
      rw [parse_dlib_xml, hp, exc_bind_ok] at h
      by_cases h0 : st.layers.length = 0
      · rw [if_pos h0] at h
        exact Except.noConfusion h
      rw [if_neg h0] at h
      by_cases h1 : (st.layers.getD (st.layers.length - 1) default).type ≠ "input"
      · rw [if_pos h1] at h
        exact Except.noConfusion h
      · rw [if_neg h1] at h
        obtain rfl := Except.ok.inj h
        refine ⟨?_, not_not.mp h1⟩
        intro hnil
        exact h0 (by rw [hnil]; rfl)
  · intro st hp
    constructor
    · intro h0
      rw [parse_dlib_xml, hp, exc_bind_ok, if_pos (by rw [h0]; rfl)]
    · intro hne h1
      have h0 : ¬st.layers.length = 0 :=
        fun h => hne (List.length_eq_zero.mp h)
      rw [parse_dlib_xml, hp, exc_bind_ok, if_neg h0, if_pos h1]

/-- Witness for C6: the two-record document of `evOK` parses successfully and
its result satisfies both postconditions. -/
theorem claim6_parser_postconditions_witness :
    parsedOK ≠ [] ∧ (parsedOK.getD (parsedOK.length - 1) default).type = "input" :=
  (claim6_parser_postconditions evOK).1 parsedOK rfl

/-- C8 counterexample: converting a document whose terminal input record has
the unrecognized detail type `input_weird` raises the "no known
transformation" error, but an output file has already been created and holds
the fixed preamble — the claim's "no output file is written" is false. -/
theorem claim8_counterexample :
    (convert_dlib_xml_to_cafffe_python_code evBadInput).result
      = Except.error "No known transformation from dlib's input_weird layer to caffe."
    ∧ (convert_dlib_xml_to_cafffe_python_code evBadInput).fileCreated = true
    ∧ (convert_dlib_xml_to_cafffe_python_code evBadInput).fileContent = preamble
    ∧ (convert_dlib_xml_to_cafffe_python_code evBadInput).fileContent ≠ "" := by
  refine ⟨rfl, rfl, rfl, ?_⟩
  decide

/-- C8 (amended): for every document whose terminal input record has a detail
type other than the three recognized input variants, the conversion raises
the "no known transformation" fatal error; the output file, however, is
created before the check (the stream is opened before parsing) and at the
point of failure contains exactly the fixed preamble — no input dimensions,
layer declarations or weights. -/
theorem claim8_amended (ev : List XmlEvent) (layers : List Layer)
    (hparse : parse_dlib_xml ev = Except.ok layers)
    (hd1 : (layers.getLast?.getD default).detail_name ≠ "input_rgb_image")
    (hd2 : (layers.getLast?.getD default).detail_name ≠ "input_rgb_image_sized")
    (hd3 : (layers.getLast?.getD default).detail_name ≠ "input") :
    (convert_dlib_xml_to_cafffe_python_code ev).result
      = Except.error ("No known transformation from dlib's "
          ++ (layers.getLast?.getD default).detail_name ++ " layer to caffe.")
    ∧ (convert_dlib_xml_to_cafffe_python_code ev).fileCreated = true
    ∧ (convert_dlib_xml_to_cafffe_python_code ev).fileContent = preamble := by
  have hid : input_decl (layers.getLast?.getD default)
      = Except.error ("No known transformation from dlib's "
          ++ (layers.getLast?.getD default).detail_name ++ " layer to caffe.") := by
    rw [input_decl, if_neg hd1, if_neg hd2, if_neg hd3]
  simp only [convert_dlib_xml_to_cafffe_python_code, hparse, hid]
  exact ⟨trivial, trivial, trivial⟩

/-- Witness for C8 (amended): the `evBadInput` document. -/
theorem claim8_amended_witness :
    (convert_dlib_xml_to_cafffe_python_code evBadInput).result
      = Except.error ("No known transformation from dlib's "
          ++ (parsedBad.getLast?.getD default).detail_name ++ " layer to caffe.")
    ∧ (convert_dlib_xml_to_cafffe_python_code evBadInput).fileCreated = true
    ∧ (convert_dlib_xml_to_cafffe_python_code evBadInput).fileContent = preamble :=
  claim8_amended evBadInput parsedBad rfl (by decide) (by decide) (by decide)

/-! The pending-tag discipline of the graph builder (claim C10). -/

lemma processEvents_tagEvents (st : DocState) (s : String) (t : Int)
    (hseen : st.seen_first_tag = true) (hs : strToInt s = some t) (rest : List XmlEvent) :
    processEvents st (tagEvents s ++ rest)
      = processEvents {st with next_layer := {}, tag_id := t} rest := by
  have h1 : processEvent st (XmlEvent.startElement "layer" [("type", "tag"), ("id", s)])
      = Except.ok
        {st with next_layer := {}, tag_id := t, current_tag := "layer" :: st.current_tag} := by
    simp [processEvent, start_element, hseen, lookupAtt, toIntE, hs, exc_bind_ok]
  have h2 : processEvent
        ({st with next_layer := {}, tag_id := t, current_tag := "layer" :: st.current_tag} :
          DocState) (XmlEvent.endElement "layer")
      = Except.ok {st with next_layer := {}, tag_id := t} := by
    simp [processEvent, end_element]
  simp only [tagEvents, List.cons_append, List.nil_append, processEvents, h1, h2]
  rfl

lemma processEvent_erase (L : List Layer) (sf : Bool) (nl : Layer) (ct : List String)
    (t1 t2 : Int) (e : XmlEvent) (hng : isGenuineLayerStart e = false) :
    (processEvent ⟨L, sf, nl, ct, t1⟩ e).map eraseTag
      = (processEvent ⟨L, sf, nl, ct, t2⟩ e).map eraseTag := by
  cases e with
  | characters d =>
    cases ct with
    | nil => rfl
    | cons top r =>
      by_cases hc : top ∈ comp_tags_with_params
      · simp [processEvent, charactersEv, hc, eraseTag, Except.map]
      · simp [processEvent, charactersEv, hc, eraseTag, Except.map]
  | endElement name =>
    by_cases h1 : name = "layer" ∧ nl.type ≠ ""
    · simp [processEvent, end_element, h1, eraseTag, Except.map, exc_bind_error]
    · simp [processEvent, end_element, h1, eraseTag, Except.map, exc_bind_error]
  | startElement name atts =>
    cases sf with
    | false =>
      by_cases hnet : name = "net"
      · subst hnet
        cases ct with
        | nil => simp [processEvent, start_element, eraseTag, exc_bind_ok, Except.map, exc_bind_error]
        | cons top r =>
          by_cases htop : top = "layer"
          · rcases hsa : setAttrs nl.attributes atts with e2 | na
            · simp [processEvent, start_element, htop, hsa, eraseTag, exc_bind_ok, Except.map, exc_bind_error]
            · simp [processEvent, start_element, htop, hsa, eraseTag, exc_bind_ok, Except.map, exc_bind_error]
          · simp [processEvent, start_element, htop, eraseTag, exc_bind_ok, Except.map, exc_bind_error]
      · simp [processEvent, start_element, hnet, eraseTag, exc_bind_ok, Except.map, exc_bind_error]
    | true =>
      by_cases hl : name = "layer"
      · subst hl
        rcases hty : lookupAtt atts "type" with e' | ty
        · simp [processEvent, start_element, hty, eraseTag, exc_bind_ok, Except.map, exc_bind_error]
        · by_cases hsk : ty = "skip"
          · subst hsk
            cases hgl : L.getLast? with
            | none => simp [processEvent, start_element, hty, hgl, eraseTag, exc_bind_ok, Except.map, exc_bind_error]
            | some lastL =>
              rcases hid : lookupAtt atts "id" with e2 | sid
              · simp [processEvent, start_element, hty, hgl, hid, eraseTag, exc_bind_ok, Except.map, exc_bind_error]
              · rcases hsi : strToInt sid with _ | i
                · simp only [processEvent, start_element, hty, hgl, hid, toIntE, hsi,
                    exc_bind_ok]
                  rfl
                · simp only [processEvent, start_element, hty, hgl, hid, toIntE, hsi,
                    exc_bind_ok]
                  rfl
          · by_cases htg : ty = "tag"
            · subst htg
              rcases hid : lookupAtt atts "id" with e2 | sid
              · simp [processEvent, start_element, hty, hid, eraseTag, exc_bind_ok, hsk, Except.map, exc_bind_error]
              · rcases hsi : strToInt sid with _ | i
                · simp [processEvent, start_element, hty, hid, toIntE, hsi,
                    eraseTag, exc_bind_ok, hsk, Except.map, exc_bind_error]
                · simp [processEvent, start_element, hty, hid, toIntE, hsi,
                    eraseTag, exc_bind_ok, hsk, Except.map, exc_bind_error]
            · exfalso
              simp [isGenuineLayerStart, hty, hsk, htg] at hng
      · cases ct with
        | nil => simp [processEvent, start_element, hl, eraseTag, exc_bind_ok, Except.map, exc_bind_error]
        | cons top r =>
          by_cases htop : top = "layer"
          · rcases hsa : setAttrs nl.attributes atts with e2 | na
            · simp [processEvent, start_element, hl, htop, hsa, eraseTag, exc_bind_ok, Except.map, exc_bind_error]
            · simp [processEvent, start_element, hl, htop, hsa, eraseTag, exc_bind_ok, Except.map, exc_bind_error]
          · simp [processEvent, start_element, hl, htop, eraseTag, exc_bind_ok, Except.map, exc_bind_error]

lemma processEvents_erase (es : List XmlEvent) :
    ∀ (L : List Layer) (sf : Bool) (nl : Layer) (ct : List String) (t1 t2 : Int),
    (∀ e ∈ es, isGenuineLayerStart e = false) →
    (processEvents ⟨L, sf, nl, ct, t1⟩ es).map eraseTag
      = (processEvents ⟨L, sf, nl, ct, t2⟩ es).map eraseTag := by
  induction es with
  | nil =>
    intro L sf nl ct t1 t2 _
    rfl
  | cons e rest ih =>
    intro L sf nl ct t1 t2 hng
    have hstep := processEvent_erase L sf nl ct t1 t2 e (hng e (List.mem_cons_self _ _))
    cases he1 : processEvent ⟨L, sf, nl, ct, t1⟩ e with
    | error m =>
      cases he2 : processEvent ⟨L, sf, nl, ct, t2⟩ e with
      | error m2 =>
        rw [he1, he2] at hstep
        simp only [Except.map] at hstep
        obtain rfl := Except.error.inj hstep
        simp [processEvents, he1, he2]
      | ok st2 =>
        rw [he1, he2] at hstep
        simp [Except.map] at hstep
    | ok st1 =>
      cases he2 : processEvent ⟨L, sf, nl, ct, t2⟩ e with
      | error m2 =>
        rw [he1, he2] at hstep
        simp [Except.map] at hstep
      | ok st2 =>
        rw [he1, he2] at hstep
        simp only [Except.map] at hstep
        have he : eraseTag st1 = eraseTag st2 := Except.ok.inj hstep
        obtain ⟨L1, sf1, nl1, ct1, tA⟩ := st1
        obtain ⟨L2, sf2, nl2, ct2, tB⟩ := st2
        simp only [eraseTag, DocState.mk.injEq, and_true] at he
        obtain ⟨rfl, rfl, rfl, rfl⟩ := he
        simp only [processEvents, he1, he2]
        exact ih L1 sf1 nl1 ct1 tA tB (fun e' he' => hng e' (List.mem_cons_of_mem _ he'))

/-- C10: the graph builder holds at most one pending tag id: (a) two tag
markers with no genuine layer between them behave exactly as the second
alone (the first is silently overwritten); (b) a genuine layer start consumes
the pending tag id into the new record's `tag_id` and resets the pending id
to the `-1` sentinel, without touching the stored list; (c) over any events
containing no genuine layer start, a pending tag id changes neither the
outcome nor any state component other than the pending id itself — it is
discarded without error. -/
theorem claim10_pending_tag :
    (∀ (st : DocState) (s1 s2 : String) (t1 t2 : Int) (rest : List XmlEvent),
        st.seen_first_tag = true → strToInt s1 = some t1 → strToInt s2 = some t2 →
        processEvents st (tagEvents s1 ++ (tagEvents s2 ++ rest))
          = processEvents st (tagEvents s2 ++ rest))
    ∧ (∀ (st : DocState) (atts : List (String × String)) (ty ixs : String) (ix : Int),
        st.seen_first_tag = true →
        lookupAtt atts "type" = Except.ok ty → ty ≠ "skip" → ty ≠ "tag" →
        lookupAtt atts "idx" = Except.ok ixs → strToInt ixs = some ix →
        ∃ st', processEvent st (XmlEvent.startElement "layer" atts) = Except.ok st'
          ∧ st'.next_layer.tag_id = st.tag_id
          ∧ st'.tag_id = -1
          ∧ st'.layers = st.layers)
    ∧ (∀ (st : DocState) (t : Int) (es : List XmlEvent),
        (∀ e ∈ es, isGenuineLayerStart e = false) →
        (processEvents {st with tag_id := t} es).map eraseTag
          = (processEvents {st with tag_id := -1} es).map eraseTag) := by
  refine ⟨?_, ?_, ?_⟩
  · intro st s1 s2 t1 t2 rest hseen h1 h2
    rw [processEvents_tagEvents st s1 t1 hseen h1,
      processEvents_tagEvents ({st with next_layer := {}, tag_id := t1} : DocState) s2 t2
        hseen h2,
      processEvents_tagEvents st s2 t2 hseen h2]
  · intro st atts ty ixs ix hseen hty hsk htg hidx hix
    by_cases htid : st.tag_id = -1
    · refine
        ⟨{st with next_layer := {idx := ix, type := ty}, current_tag := "layer" :: st.current_tag},
          ?_, ?_, ?_, rfl⟩
      · simp [processEvent, start_element, hseen, hty, if_neg hsk, if_neg htg, hidx,
          toIntE, hix, exc_bind_ok, htid]
      · exact htid.symm
      · exact htid
    · refine
        ⟨{st with next_layer := {idx := ix, type := ty, tag_id := st.tag_id}, tag_id := -1, current_tag := "layer" :: st.current_tag},
          ?_, rfl, rfl, rfl⟩
      simp [processEvent, start_element, hseen, hty, if_neg hsk, if_neg htg, hidx,
        toIntE, hix, exc_bind_ok, htid]
  · intro st t es hng
    obtain ⟨L, sf, nl, ct, t0⟩ := st
    exact processEvents_erase es L sf nl ct t (-1) hng

/-- Witness for C10: two consecutive tag markers inside a document behave as
the second alone. -/
theorem claim10_pending_tag_witness :
    processEvents stInDoc (tagEvents "1" ++ (tagEvents "2" ++ []))
      = processEvents stInDoc (tagEvents "2" ++ []) :=
  claim10_pending_tag.1 stInDoc "1" "2" 1 2 [] rfl rfl rfl

end DlibToCaffe
